import Mathlib

/-!
Verification of the TCGA ETL transform pipeline (src/transform_to_mongo.py,
src/join_clinical.py, src/config.py) against its natural-language
specification.  The Python code is shallowly embedded: pandas cell values
become an inductive `PyValue`, a pandas row becomes a `Row`, the MongoDB
collection becomes a list of `MongoDoc` records, and each Python function of
interest becomes an executable Lean definition mirroring its control flow.
-/

set_option linter.unusedVariables false

/-! ## Python-level value model -/

/-- Model of a pandas / numpy cell value as seen by the transform code:
`vnan` is a missing value (`pd.isna` is true exactly on it), `vint` models
`np.integer`, `vfloat` models `np.floating` (mathematically, as a rational),
and `vstr` models any other (non-numeric) value. -/
inductive PyValue where
  | vnan : PyValue
  | vint : Int → PyValue
  | vfloat : Rat → PyValue
  | vstr : String → PyValue
deriving DecidableEq

/-- `pd.notna(value)`: false exactly on the missing value. -/
def pyNotNa : PyValue → Bool
  | PyValue.vnan => false
  | _ => true

/-- `str(value)` as used by join_clinical.py on cell values. -/
def pyStr : PyValue → String
  | PyValue.vnan => "nan"
  | PyValue.vint n => toString n
  | PyValue.vfloat q => toString q
  | PyValue.vstr s => s

/-! ## Python `str.split('-')` and `'-'.join` -/

/-- Helper for `pySplitDash`: walks the character list, accumulating the
current segment (reversed) and emitting it at each separator. -/
def splitDashAux : List Char → List Char → List String
  | [], acc => [String.mk acc.reverse]
  | c :: cs, acc =>
    if c = '-' then String.mk acc.reverse :: splitDashAux cs []
    else splitDashAux cs (c :: acc)

/-- Model of Python `s.split('-')` (single-character separator, no maxsplit):
`"a-b".split('-') = ["a","b"]`, `"".split('-') = [""]`, `"a-".split('-') = ["a",""]`. -/
def pySplitDash (s : String) : List String := splitDashAux s.toList []

/-- Model of Python `'-'.join(parts)`. -/
def joinDash : List String → String
  | [] => ""
  | [a] => a
  | a :: rest => a ++ "-" ++ joinDash rest

/-- Model of Python `s.endswith(suffix)`. -/
def pyEndsWith (s suffix : String) : Bool :=
  suffix.toList.isSuffixOf s.toList

/-- Model of Python `s.lower()` (character-wise lowering). -/
def pyToLower (s : String) : String := String.mk (s.toList.map Char.toLower)

/-! ## transform_to_mongo.py: identifier derivation (lines 55-68) -/

/-- `extract_patient_id_and_cohort(sample_id)` from transform_to_mongo.py:
split on '-'; if at least three parts and the first is "TCGA", return
(`parts[0]-parts[1]-parts[2]`, `parts[1]`); otherwise the fallback
(`sample_id`, "UNKNOWN"). -/
def extract_patient_id_and_cohort (sample_id : String) : String × String :=
  match pySplitDash sample_id with
  | p0 :: p1 :: p2 :: _ =>
    if p0 = "TCGA" then (p0 ++ "-" ++ p1 ++ "-" ++ p2, p1)
    else (sample_id, "UNKNOWN")
  | _ => (sample_id, "UNKNOWN")

/-! ## join_clinical.py: patient-id extraction (lines 22-27) -/

/-- `extract_patient_id(barcode)` from join_clinical.py: split on '-'; if at
least three parts, rejoin the first three with '-'; else the full barcode. -/
def extract_patient_id (barcode : String) : String :=
  let parts := pySplitDash barcode
  if 3 ≤ parts.length then joinDash (parts.take 3) else barcode

/-! ## config.py: the cGAS-STING gene panel (lines 34-37) -/

/-- `CFG['cgas_sting_genes']` from config.py. -/
def cgas_sting_genes : List String :=
  ["C6orf150", "CCL5", "CXCL10", "TMEM173", "CXCL9", "CXCL11",
   "NFKB1", "IKBKE", "IRF3", "TREX1", "ATM", "IL6", "IL8", "CXCL8"]

/-! ## transform_to_mongo.py: gene-panel normalization
(process_transposed_tsv_data lines 118-126) -/

/-- The "genes to keep" computation of process_transposed_tsv_data: intersect
the available row labels with the target panel, then the IL8/CXCL8 synonym
step: if "IL8" is not among the kept genes and "CXCL8" is available, add
"CXCL8". -/
def genes_to_keep (available_genes : Finset String) : Finset String :=
  let gtk := available_genes ∩ cgas_sting_genes.toFinset
  if "IL8" ∉ gtk ∧ "CXCL8" ∈ available_genes then insert "CXCL8" gtk else gtk

/-! ## transform_to_mongo.py: document building (lines 70-100) -/

/-- A reshaped pandas row: the 'sample' column plus a cell per gene column. -/
structure Row where
  sample : String
  cells : String → PyValue

/-- The MongoDB document assembled by `create_mongo_document`.  The gene and
clinical dictionaries are modeled as association lists in insertion order
(gene columns of a dataframe are distinct, so keys are unique). -/
structure MongoDoc where
  _id : String
  patient_id : String
  sample_id : String
  cancer_cohort : String
  genes : List (String × PyValue)
  clinical : List (String × PyValue)
deriving DecidableEq

/-- The per-cell sanitization of `create_mongo_document`: `pd.isna` values
become 0.0; `np.integer`/`np.floating` values are coerced with `float(...)`;
anything else is stored unchanged. -/
def sanitize : PyValue → PyValue
  | PyValue.vnan => PyValue.vfloat 0
  | PyValue.vint n => PyValue.vfloat (n : Rat)
  | PyValue.vfloat q => PyValue.vfloat q
  | PyValue.vstr s => PyValue.vstr s

/-- `create_mongo_document(row, gene_columns)` from transform_to_mongo.py:
derive (patient_id, cohort) from the sample id, sanitize every gene column
value, and assemble the document with `_id = f"{cohort}:{patient_id}"` and an
empty clinical mapping. -/
def create_mongo_document (row : Row) (gene_columns : List String) : MongoDoc :=
  let pc := extract_patient_id_and_cohort row.sample
  { _id := pc.2 ++ ":" ++ pc.1
  , patient_id := pc.1
  , sample_id := row.sample
  , cancer_cohort := pc.2
  , genes := gene_columns.map (fun gene => (gene, sanitize (row.cells gene)))
  , clinical := [] }

/-! ## The MongoDB collection and the batch upsert
(insert_documents_to_mongo, lines 207-255) -/

/-- The document store: the collection's documents in insertion order. -/
abbrev Store := List MongoDoc

/-- `collection.find_one({'_id': i})`: the first document with the given id. -/
def findDoc : Store → String → Option MongoDoc
  | [], _ => none
  | d :: ds, i => if d._id = i then some d else findDoc ds i

/-- Whether some document with the given `_id` exists in the store. -/
def existsId : Store → String → Bool
  | [], _ => false
  | d :: ds, i => if d._id = i then true else existsId ds i

/-- Number of documents in the store carrying the given `_id`. -/
def countKey : Store → String → Nat
  | [], _ => 0
  | d :: ds, i => (if d._id = i then 1 else 0) + countKey ds i

/-- Apply an update to the first document matching the id (MongoDB
`UpdateOne` matches a single document). -/
def updateFirst : Store → String → (MongoDoc → MongoDoc) → Store
  | [], _, _ => []
  | d :: ds, i, f => if d._id = i then f d :: ds else d :: updateFirst ds i f

/-- The effect of `{'$set': doc}` on a matched document: every top-level
field of `doc` (including `clinical`) is written over the stored document. -/
def applySetAllFields (old upd : MongoDoc) : MongoDoc :=
  { _id := upd._id, patient_id := upd.patient_id, sample_id := upd.sample_id,
    cancer_cohort := upd.cancer_cohort, genes := upd.genes, clinical := upd.clinical }

/-- One `UpdateOne({'_id': doc['_id']}, {'$set': doc}, upsert=True)`: if a
document with the id exists, `$set` all fields of `doc` on it; otherwise
insert `doc`. -/
def upsertOne (store : Store) (doc : MongoDoc) : Store :=
  if existsId store doc._id then
    updateFirst store doc._id (fun old => applySetAllFields old doc)
  else store ++ [doc]

/-- `documents[i:i+batch_size]` slicing loop of insert_documents_to_mongo:
partition a list into contiguous chunks of `batch_size` (the Python loop
`range(0, len(documents), batch_size)` requires a nonzero step, so the
`batch_size = 0` case is unreachable in the source and modeled as no batches). -/
def chunks {α : Type} (bs : Nat) (docs : List α) : List (List α) :=
  match bs, docs with
  | 0, _ => []
  | _+1, [] => []
  | b+1, x :: xs => (x :: xs).take (b+1) :: chunks (b+1) (xs.drop b)
termination_by docs.length
decreasing_by simp; omega

/-- `collection.bulk_write(upsert_operations, ordered=False)` for one batch:
apply every upsert in order, counting `upserted_count + modified_count`
(an operation that matches a document but leaves it unchanged is matched,
not modified, so it adds 0 — MongoDB `modified_count` semantics). -/
def runBatch (store : Store) (batch : List MongoDoc) : Store × Nat :=
  batch.foldl
    (fun acc doc =>
      let inc : Nat :=
        if existsId acc.1 doc._id then
          if upsertOne acc.1 doc = acc.1 then 0 else 1
        else 1
      (upsertOne acc.1 doc, acc.2 + inc))
    (store, 0)

/-- The batch loop of insert_documents_to_mongo: process batches in order;
a batch whose bulk write raises `PyMongoError` (modeled by the failure
oracle `fails`) is skipped (`continue`), contributing nothing to the store
or the running total. -/
def insertBatches (fails : Nat → Bool) : Store → Nat → Nat → List (List MongoDoc) → Store × Nat
  | store, total, _, [] => (store, total)
  | store, total, i, b :: rest =>
    if fails i then insertBatches fails store total (i+1) rest
    else
      let r := runBatch store b
      insertBatches fails r.1 (total + r.2) (i+1) rest

/-- `insert_documents_to_mongo(documents, collection, batch_size)`: early
return 0 on an empty document list, otherwise run the batch loop.  Returns
the final store plus the aggregate inserted/modified total. -/
def insert_documents_to_mongo (documents : List MongoDoc) (store : Store)
    (fails : Nat → Bool) (batch_size : Nat) : Store × Nat :=
  if documents.isEmpty then (store, 0)
  else insertBatches fails store 0 0 (chunks batch_size documents)

/-- The no-failure oracle: every bulk write succeeds. -/
def noFailure : Nat → Bool := fun _ => false

/-! ## gzip detection (process_tsv_data lines 184-190,
process_file_from_minio lines 281-297) -/

/-- How a payload is decoded before parsing. -/
inductive DecodeMode where
  | gzipThenUtf8 : DecodeMode
  | plainUtf8 : DecodeMode
deriving DecidableEq

/-- The gzip magic number `1f 8b`. -/
def gzip_magic : List Nat := [0x1f, 0x8b]

/-- The decompression branch of `process_tsv_data(tsv_content, cohort)`:
gzip-decompress iff the payload starts with the two magic bytes. -/
def process_tsv_data_decode (tsv_content : List Nat) : DecodeMode :=
  if tsv_content.take 2 = gzip_magic then DecodeMode.gzipThenUtf8
  else DecodeMode.plainUtf8

/-- The decompression branch of `process_file_from_minio(object_name, ...)`:
gzip-decompress iff the object name ends in ".gz"; the payload bytes are not
consulted. -/
def process_file_from_minio_decode (object_name : String) (payload : List Nat) : DecodeMode :=
  if pyEndsWith object_name ".gz" then DecodeMode.gzipThenUtf8
  else DecodeMode.plainUtf8

/-! ## join_clinical.py: clinical field resolution (lines 75-118) -/

/-- The `field_mapping` table of load_clinical_data (lines 94-107). -/
def field_mapping : List (String × List String) :=
  [ ("DSS", ["DSS", "disease_specific_survival", "dss"])
  , ("DSS_time", ["DSS.time", "disease_specific_survival_time", "dss_time"])
  , ("OS", ["OS", "overall_survival", "os"])
  , ("OS_time", ["OS.time", "overall_survival_time", "os_time"])
  , ("clinical_stage", ["ajcc_pathologic_tumor_stage", "clinical_stage", "stage",
      "pathologic_stage", "clinical_stage_grouping", "ajcc_pathologic_stage"])
  , ("age_at_diagnosis", ["age_at_initial_pathologic_diagnosis", "age_at_diagnosis", "age"])
  , ("gender", ["gender", "sex"])
  , ("race", ["race", "ethnicity"])
  , ("vital_status", ["vital_status", "status"])
  , ("tumor_status", ["tumor_status"])
  , ("histological_type", ["histological_type", "histology"])
  , ("histological_grade", ["histological_grade", "grade"]) ]

/-- The recognized null tokens (compared after `str(value).lower()`). -/
def null_tokens : List String := ["nan", "na", "", "null"]

/-- The value test of load_clinical_data line 113:
`pd.notna(value) and str(value).lower() not in ['nan', 'na', '', 'null']`. -/
def goodValue (v : PyValue) : Bool :=
  pyNotNa v && !(null_tokens.contains (pyToLower (pyStr v)))

/-- The inner candidate scan of load_clinical_data (lines 110-115): walk the
candidate source columns; at the FIRST candidate present in the table's
columns, keep its value if it passes `goodValue` and otherwise resolve to
nothing — the `break` sits inside the `if source_field in columns` block, so
later candidates are never consulted once an existing column is found. -/
def resolveField (columns : List String) (row : String → PyValue) :
    List String → Option PyValue
  | [] => none
  | c :: cs =>
    if c ∈ columns then
      if goodValue (row c) then some (row c) else none
    else resolveField columns row cs

/-- One row's clinical mapping: resolve every canonical field of
`field_mapping` in order, keeping the resolved ones. -/
def rowClinical (columns : List String) (row : String → PyValue) :
    List (String × PyValue) :=
  field_mapping.filterMap
    (fun p => (resolveField columns row p.2).map (fun v => (p.1, v)))

/-- The candidate id-bearing columns of load_clinical_data line 79. -/
def idCandidates : List String :=
  ["bcr_patient_barcode", "sample", "submitter_id", "Patient_ID", "patient_id", "barcode"]

/-- Patient-id derivation of load_clinical_data (lines 78-89): the first
id-candidate column present in the table wins; a falsy or "nan" result falls
back to the row's first column (`row.iloc[0]`); if still falsy or "nan" the
row is skipped. -/
def derivePatientId (columns : List String) (row : String → PyValue) : Option String :=
  let p1 : Option String :=
    (idCandidates.find? (fun c => columns.contains c)).map
      (fun c => extract_patient_id (pyStr (row c)))
  let p2 : String :=
    match p1 with
    | some p =>
      if p = "" ∨ p = "nan" then extract_patient_id (pyStr (row (columns.headD "")))
      else p
    | none => extract_patient_id (pyStr (row (columns.headD "")))
  if p2 = "" ∨ p2 = "nan" then none else some p2

/-- The row loop of load_clinical_data (lines 76-118): derive a patient id
per row, build the row's clinical mapping, and keep the patient only if at
least one clinical field resolved (`if clinical_data:`). -/
def load_clinical_rows (columns : List String) (rows : List (String → PyValue)) :
    List (String × List (String × PyValue)) :=
  rows.filterMap (fun row =>
    match derivePatientId columns row with
    | none => none
    | some pid =>
      let cdata := rowClinical columns row
      if cdata.isEmpty then none else some (pid, cdata))

/-! ## join_clinical.py: the clinical update pass
(update_patients_with_clinical, lines 133-200) -/

/-- `clinical_data[patient_id]` lookup (dict modeled as association list). -/
def lookupClinical (clinical_data : List (String × List (String × PyValue)))
    (pid : String) : Option (List (String × PyValue)) :=
  (clinical_data.find? (fun p => p.1 == pid)).map Prod.snd

/-- The effect of `UpdateOne({"_id": i}, {"$set": {"clinical": c}})`:
set only the `clinical` field of the first document matching the id. -/
def setClinicalFirst : Store → String → List (String × PyValue) → Store
  | [], _, _ => []
  | d :: ds, i, c =>
    if d._id = i then { d with clinical := c } :: ds
    else d :: setClinicalFirst ds i c

/-- Apply the queued clinical update operations in order, counting
`modified_count` (an update that leaves the store unchanged adds 0). -/
def applyClinicalOps : Store × Nat → List (String × List (String × PyValue)) → Store × Nat
  | acc, [] => acc
  | acc, op :: rest =>
    let s2 := setClinicalFirst acc.1 op.1 op.2
    applyClinicalOps (s2, acc.2 + (if s2 = acc.1 then 0 else 1)) rest

/-- `update_patients_with_clinical(clinical_data)`: early no-op returning 0
when the clinical map is empty; otherwise queue, for every stored document
with a truthy patient id that is a key of the clinical map, an update that
sets only its `clinical` field, and apply the operations. -/
def update_patients_with_clinical
    (clinical_data : List (String × List (String × PyValue))) (store : Store) :
    Store × Nat :=
  if clinical_data.isEmpty then (store, 0)
  else
    let ops : List (String × List (String × PyValue)) :=
      store.filterMap (fun doc =>
        if doc.patient_id = "" then none
        else (lookupClinical clinical_data doc.patient_id).map (fun c => (doc._id, c)))
    applyClinicalOps (store, 0) ops

/-- A document with its clinical field blanked, used to state frame
properties ("everything except `clinical` is untouched"). -/
def eraseClinical (d : MongoDoc) : MongoDoc := { d with clinical := [] }

/-! ## Concrete data used by witnesses and counterexamples -/

/-- A reshaped row for sample TCGA-AB-1234-01 whose cells are all 1.0. -/
def rowA : Row := { sample := "TCGA-AB-1234-01", cells := fun _ => PyValue.vfloat 1 }

/-- A second load of the same sample with different values (all 2.0). -/
def rowB : Row := { sample := "TCGA-AB-1234-01", cells := fun _ => PyValue.vfloat 2 }

/-- First load's document for sample TCGA-AB-1234-01. -/
def docA : MongoDoc := create_mongo_document rowA ["IL8"]

/-- Second load's document for the same sample, different gene values. -/
def docB : MongoDoc := create_mongo_document rowB ["IL8"]

/-- A stored document for patient TCGA-AB-1234 that already carries a
non-empty clinical mapping (as left by a previous clinical-join pass). -/
def oldDoc : MongoDoc :=
  { _id := "AB:TCGA-AB-1234", patient_id := "TCGA-AB-1234",
    sample_id := "TCGA-AB-1234-01", cancer_cohort := "AB",
    genes := [("IL8", PyValue.vfloat 5)],
    clinical := [("OS", PyValue.vstr "1")] }

/-- A freshly rebuilt document for the same sample (gene-loading pass). -/
def freshDoc : MongoDoc :=
  create_mongo_document { sample := "TCGA-AB-1234-01", cells := fun _ => PyValue.vfloat 7 } ["IL8"]

/-- A clinical table row whose `gender` column holds the null token "nan"
while its `sex` column holds a usable value. -/
def cexRow : String → PyValue := fun c =>
  if c = "gender" then PyValue.vstr "nan"
  else if c = "sex" then PyValue.vstr "male"
  else PyValue.vnan

/-- The clinical table columns for the `cexRow` scenario. -/
def cexColumns : List String := ["gender", "sex"]

/-- A tiny document used to exercise the batch loader. -/
def wdoc : MongoDoc :=
  { _id := "a", patient_id := "p", sample_id := "s", cancer_cohort := "c",
    genes := [], clinical := [] }

/-! # Theorems -/

/-! ## Helper lemmas about identifier derivation -/

theorem joinDash_three (a b c : String) :
    joinDash [a, b, c] = a ++ "-" ++ b ++ "-" ++ c := by
  simp [joinDash, String.append_assoc]

/-- Claim C1: identifier derivation is a pure deterministic function: when
the '-'-split of the input has at least three segments and the first equals
"TCGA", it returns (first three segments rejoined with '-', second segment);
otherwise it returns (the input unchanged, "UNKNOWN"); in particular
derive("TCGA-AB-1234-01") = ("TCGA-AB-1234", "AB") and
derive("XYZ") = ("XYZ", "UNKNOWN"). -/
theorem c1_identifier_derivation (s : String) :
    (3 ≤ (pySplitDash s).length → (pySplitDash s).headD "" = "TCGA" →
      extract_patient_id_and_cohort s
        = (joinDash ((pySplitDash s).take 3), (pySplitDash s).getD 1 "")) ∧
    (¬ (3 ≤ (pySplitDash s).length ∧ (pySplitDash s).headD "" = "TCGA") →
      extract_patient_id_and_cohort s = (s, "UNKNOWN")) ∧
    extract_patient_id_and_cohort "TCGA-AB-1234-01" = ("TCGA-AB-1234", "AB") ∧
    extract_patient_id_and_cohort "XYZ" = ("XYZ", "UNKNOWN") := by
  refine ⟨?_, ?_, by decide, by decide⟩
  · intro hlen hhead
    unfold extract_patient_id_and_cohort
    rcases hp : pySplitDash s with _ | ⟨p0, _ | ⟨p1, _ | ⟨p2, rest⟩⟩⟩ <;>
      rw [hp] at hlen hhead <;> simp at hlen hhead ⊢
    subst hhead
    simp [joinDash_three]
  · intro hneg
    unfold extract_patient_id_and_cohort
    rcases hp : pySplitDash s with _ | ⟨p0, _ | ⟨p1, _ | ⟨p2, rest⟩⟩⟩ <;>
      rw [hp] at hneg <;> simp at hneg ⊢
    intro h0
    exact absurd h0 hneg

/-- Witness for C1 at the concrete inputs of the claim. -/
theorem c1_identifier_derivation_witness :
    extract_patient_id_and_cohort "TCGA-AB-1234-01"
        = (joinDash ((pySplitDash "TCGA-AB-1234-01").take 3),
           (pySplitDash "TCGA-AB-1234-01").getD 1 "") ∧
    extract_patient_id_and_cohort "XYZ" = ("XYZ", "UNKNOWN") :=
  ⟨(c1_identifier_derivation "TCGA-AB-1234-01").1 (by decide) (by decide),
   (c1_identifier_derivation "XYZ").2.1 (by decide)⟩

/-- Claim C10: on identifiers with at least three '-'-segments whose first
segment is "TCGA", the clinical joiner's extract_patient_id and the transform
pipeline's extract_patient_id_and_cohort agree (both yield the first three
segments rejoined); when the first segment is not "TCGA" the clinical
extractor still truncates to three segments while the transform deriver falls
back to the full input, so the two may disagree. -/
theorem c10_extractor_agreement :
    (∀ s : String, 3 ≤ (pySplitDash s).length → (pySplitDash s).headD "" = "TCGA" →
      extract_patient_id s = (extract_patient_id_and_cohort s).1 ∧
      extract_patient_id s = joinDash ((pySplitDash s).take 3)) ∧
    (∀ s : String, 3 ≤ (pySplitDash s).length → (pySplitDash s).headD "" ≠ "TCGA" →
      extract_patient_id s = joinDash ((pySplitDash s).take 3) ∧
      extract_patient_id_and_cohort s = (s, "UNKNOWN")) ∧
    (extract_patient_id "AAAA-BB-CCCC-DD" = "AAAA-BB-CCCC" ∧
     (extract_patient_id_and_cohort "AAAA-BB-CCCC-DD").1 = "AAAA-BB-CCCC-DD" ∧
     extract_patient_id "AAAA-BB-CCCC-DD" ≠ (extract_patient_id_and_cohort "AAAA-BB-CCCC-DD").1) := by
  refine ⟨?_, ?_, by decide, by decide, by decide⟩
  · intro s hlen hhead
    unfold extract_patient_id extract_patient_id_and_cohort
    rcases hp : pySplitDash s with _ | ⟨p0, _ | ⟨p1, _ | ⟨p2, rest⟩⟩⟩ <;>
      rw [hp] at hlen hhead <;> simp at hlen hhead ⊢
    subst hhead
    simp [joinDash_three]
  · intro s hlen hhead
    unfold extract_patient_id extract_patient_id_and_cohort
    rcases hp : pySplitDash s with _ | ⟨p0, _ | ⟨p1, _ | ⟨p2, rest⟩⟩⟩ <;>
      rw [hp] at hlen hhead <;> simp at hlen hhead ⊢
    simp [hhead]

/-- Witness for C10: both implications at concrete barcodes. -/
theorem c10_extractor_agreement_witness :
    (extract_patient_id "TCGA-AB-1234-01" = (extract_patient_id_and_cohort "TCGA-AB-1234-01").1 ∧
     extract_patient_id "TCGA-AB-1234-01" = joinDash ((pySplitDash "TCGA-AB-1234-01").take 3)) ∧
    (extract_patient_id "AAAA-BB-CCCC-DD" = joinDash ((pySplitDash "AAAA-BB-CCCC-DD").take 3) ∧
     extract_patient_id_and_cohort "AAAA-BB-CCCC-DD" = ("AAAA-BB-CCCC-DD", "UNKNOWN")) :=
  ⟨c10_extractor_agreement.1 "TCGA-AB-1234-01" (by decide) (by decide),
   c10_extractor_agreement.2.1 "AAAA-BB-CCCC-DD" (by decide) (by decide)⟩

/-- Claim C2: the alias symbol CXCL8 is added to the retained "genes to keep"
set only under the code's synonym condition (IL8 absent from the intersection
and CXCL8 among the available rows); CXCL8 is retained only when actually
available; and when both IL8 and CXCL8 are available the canonical symbol
wins: IL8 is retained and no alias substitution takes place (the retained set
is exactly the intersection with the target panel). -/
theorem c2_alias_precedence :
    (∀ available : Finset String,
      ¬ ("IL8" ∉ available ∩ cgas_sting_genes.toFinset ∧ "CXCL8" ∈ available) →
      genes_to_keep available = available ∩ cgas_sting_genes.toFinset) ∧
    (∀ available : Finset String,
      "CXCL8" ∈ genes_to_keep available → "CXCL8" ∈ available) ∧
    (∀ available : Finset String, "IL8" ∈ available → "CXCL8" ∈ available →
      "IL8" ∈ genes_to_keep available ∧
      genes_to_keep available = available ∩ cgas_sting_genes.toFinset) := by
  refine ⟨?_, ?_, ?_⟩
  · intro available h
    simp only [genes_to_keep, if_neg h]
  · intro available h
    by_cases hc : "IL8" ∉ available ∩ cgas_sting_genes.toFinset ∧ "CXCL8" ∈ available
    · exact hc.2
    · rw [genes_to_keep, if_neg hc] at h
      exact (Finset.mem_inter.mp h).1
  · intro available h8 hc8
    have hmem : "IL8" ∈ available ∩ cgas_sting_genes.toFinset :=
      Finset.mem_inter.mpr ⟨h8, by decide⟩
    have hcond : ¬ ("IL8" ∉ available ∩ cgas_sting_genes.toFinset ∧ "CXCL8" ∈ available) := by
      intro h
      exact h.1 hmem
    refine ⟨?_, by simp only [genes_to_keep, if_neg hcond]⟩
    simp only [genes_to_keep, if_neg hcond]
    exact hmem

/-- Witness for C2: the panel at an availability set containing both IL8 and
CXCL8, and at the empty availability set. -/
theorem c2_alias_precedence_witness :
    ("IL8" ∈ ({"IL8", "CXCL8"} : Finset String) ∧
     "CXCL8" ∈ ({"IL8", "CXCL8"} : Finset String) ∧
     "IL8" ∈ genes_to_keep {"IL8", "CXCL8"}) ∧
    (¬ ("IL8" ∉ (∅ : Finset String) ∩ cgas_sting_genes.toFinset ∧ "CXCL8" ∈ (∅ : Finset String)) ∧
     genes_to_keep ∅ = (∅ : Finset String) ∩ cgas_sting_genes.toFinset) :=
  ⟨⟨by decide, by decide,
    (c2_alias_precedence.2.2 {"IL8", "CXCL8"} (by decide) (by decide)).1⟩,
   ⟨by decide, c2_alias_precedence.1 ∅ (by decide)⟩⟩

/-- Claim C5: the document builder's gene mapping is exactly the declared
gene columns (in order, none dropped), each bound to the sanitized cell, and
sanitization is the total function: NaN/missing becomes exactly 0.0, numeric
values are coerced to float, any other value passes through unchanged. -/
theorem c5_document_builder (row : Row) (gene_columns : List String) :
    (create_mongo_document row gene_columns).genes
        = gene_columns.map (fun g => (g, sanitize (row.cells g))) ∧
    ((create_mongo_document row gene_columns).genes).map Prod.fst = gene_columns ∧
    sanitize PyValue.vnan = PyValue.vfloat 0 ∧
    (∀ n : Int, sanitize (PyValue.vint n) = PyValue.vfloat (n : Rat)) ∧
    (∀ q : Rat, sanitize (PyValue.vfloat q) = PyValue.vfloat q) ∧
    (∀ t : String, sanitize (PyValue.vstr t) = PyValue.vstr t) := by
  refine ⟨rfl, ?_, rfl, fun _ => rfl, fun _ => rfl, fun _ => rfl⟩
  simp [create_mongo_document, Function.comp_def]

/-! ## Helper lemmas about the upsert store -/

theorem applySetAllFields_eq (old upd : MongoDoc) : applySetAllFields old upd = upd := rfl

theorem upsertOne_cons_ne (e : MongoDoc) (t : Store) (d : MongoDoc)
    (h : e._id ≠ d._id) : upsertOne (e :: t) d = e :: upsertOne t d := by
  simp only [upsertOne, existsId, updateFirst, if_neg h]
  split <;> simp [h]

theorem findDoc_upsertOne_self (s : Store) (d : MongoDoc) :
    findDoc (upsertOne s d) d._id = some d := by
  induction s with
  | nil => simp [upsertOne, existsId, findDoc]
  | cons e t ih =>
    by_cases h : e._id = d._id
    · simp [upsertOne, existsId, updateFirst, h, findDoc, applySetAllFields_eq]
    · rw [upsertOne_cons_ne e t d h]
      simp [findDoc, h, ih]

/-- The ids of the documents in a store, in order. -/
def storeIds (s : Store) : List String := s.map MongoDoc._id

theorem storeIds_cons (e : MongoDoc) (t : Store) :
    storeIds (e :: t) = e._id :: storeIds t := rfl

theorem existsId_iff (s : Store) (i : String) :
    existsId s i = true ↔ i ∈ storeIds s := by
  induction s with
  | nil => simp [existsId, storeIds]
  | cons e t ih =>
    rw [storeIds_cons]
    by_cases h : e._id = i
    · simp [existsId, h]
    · simp only [existsId, if_neg h, List.mem_cons]
      rw [ih]
      constructor
      · exact fun hx => Or.inr hx
      · rintro (rfl | hm)
        · exact absurd rfl h
        · exact hm

theorem storeIds_updateFirst (s : Store) (i : String) (f : MongoDoc → MongoDoc)
    (hf : ∀ d : MongoDoc, d._id = i → (f d)._id = d._id) :
    storeIds (updateFirst s i f) = storeIds s := by
  induction s with
  | nil => rfl
  | cons e t ih =>
    by_cases h : e._id = i
    · simp only [updateFirst, if_pos h, storeIds_cons, hf e h]
    · simp only [updateFirst, if_neg h, storeIds_cons, ih]

theorem storeIds_upsertOne (s : Store) (d : MongoDoc) :
    storeIds (upsertOne s d) =
      if existsId s d._id then storeIds s else storeIds s ++ [d._id] := by
  by_cases h : existsId s d._id
  · simp only [upsertOne, if_pos h, h, if_true]
    refine storeIds_updateFirst s d._id _ (fun e he => ?_)
    rw [applySetAllFields_eq]
    exact he.symm
  · simp [upsertOne, h, storeIds]

theorem nodup_storeIds_upsertOne (s : Store) (d : MongoDoc)
    (h : (storeIds s).Nodup) : (storeIds (upsertOne s d)).Nodup := by
  rw [storeIds_upsertOne]
  split
  · exact h
  · rename_i hne
    have : d._id ∉ storeIds s := fun hm => hne ((existsId_iff s d._id).mpr hm)
    simp [List.nodup_append, h, this]

theorem mem_storeIds_upsertOne_self (s : Store) (d : MongoDoc) :
    d._id ∈ storeIds (upsertOne s d) := by
  rw [storeIds_upsertOne]
  split
  · rename_i h
    exact (existsId_iff s d._id).mp h
  · simp

theorem countKey_eq_zero (s : Store) (i : String) (h : i ∉ storeIds s) :
    countKey s i = 0 := by
  induction s with
  | nil => rfl
  | cons e t ih =>
    rw [storeIds_cons] at h
    simp only [List.mem_cons, not_or] at h
    have hne : ¬ e._id = i := fun he => h.1 he.symm
    simp only [countKey, if_neg hne, Nat.zero_add]
    exact ih h.2

theorem countKey_nodup_mem (s : Store) (i : String)
    (hnd : (storeIds s).Nodup) (hm : i ∈ storeIds s) : countKey s i = 1 := by
  induction s with
  | nil => simp [storeIds] at hm
  | cons e t ih =>
    rw [storeIds_cons] at hnd hm
    simp only [List.nodup_cons] at hnd
    simp only [List.mem_cons] at hm
    by_cases h : e._id = i
    · subst h
      have h0 : countKey t e._id = 0 := countKey_eq_zero t e._id hnd.1
      simp [countKey, h0]
    · rcases hm with hm | hm
      · exact absurd hm.symm h
      · simp only [countKey, if_neg h, Nat.zero_add]
        exact ih hnd.2 hm

/-! ## Helper lemmas about batching -/

theorem chunks_nil {α : Type} (k : Nat) : chunks k ([] : List α) = [] := by
  cases k <;> rw [chunks.eq_def]

theorem chunks_cons {α : Type} (b : Nat) (x : α) (xs : List α) :
    chunks (b+1) (x :: xs) = (x :: xs).take (b+1) :: chunks (b+1) (xs.drop b) := by
  rw [chunks.eq_def]

theorem chunks_flatten {α : Type} (bs : Nat) (docs : List α) (h : 0 < bs) :
    (chunks bs docs).flatten = docs := by
  induction bs, docs using chunks.induct with
  | case1 docs => omega
  | case2 b => simp [chunks_nil]
  | case3 b x xs ih =>
    rw [chunks_cons]
    simp only [List.flatten_cons, ih (by omega)]
    rw [show xs.drop b = (x :: xs).drop (b+1) from rfl, List.take_append_drop]

theorem chunks_length_le {α : Type} (bs : Nat) (docs : List α) (h : 0 < bs) :
    ∀ c ∈ chunks bs docs, c.length ≤ bs := by
  induction bs, docs using chunks.induct with
  | case1 docs => omega
  | case2 b => simp [chunks_nil]
  | case3 b x xs ih =>
    rw [chunks_cons]
    intro c hc
    rcases List.mem_cons.mp hc with rfl | hc
    · simp
    · exact ih (by omega) c hc

theorem chunks_dropLast_length {α : Type} (bs : Nat) (docs : List α) (h : 0 < bs) :
    ∀ c ∈ (chunks bs docs).dropLast, c.length = bs := by
  induction bs, docs using chunks.induct with
  | case1 docs => omega
  | case2 b => simp [chunks_nil]
  | case3 b x xs ih =>
    rw [chunks_cons]
    rcases hR : chunks (b+1) (xs.drop b) with _ | ⟨r, rs⟩
    · simp
    · intro c hc
      rw [List.dropLast_cons₂] at hc
      rcases List.mem_cons.mp hc with rfl | hc
      · have hdrop : xs.drop b ≠ [] := by
          intro hd
          rw [hd, chunks_nil] at hR
          exact List.cons_ne_nil r rs hR.symm
        have hlen : b < xs.length := by
          by_contra hb
          exact hdrop (List.drop_eq_nil_of_le (by omega))
        simp only [List.length_take, List.length_cons]
        omega
      · rw [← hR] at hc
        exact ih (by omega) c hc

theorem insertBatches_failed_skip (fails : Nat → Bool) (store : Store)
    (total i : Nat) (b : List MongoDoc) (rest : List (List MongoDoc))
    (h : fails i = true) :
    insertBatches fails store total i (b :: rest)
      = insertBatches fails store total (i+1) rest := by
  simp [insertBatches, h]

theorem chunks_singleton {α : Type} (bs : Nat) (h : 0 < bs) (d : α) :
    chunks bs [d] = [[d]] := by
  rcases bs with _ | b
  · omega
  · rw [chunks_cons]
    simp [chunks_nil]

theorem insert_single (s : Store) (d : MongoDoc) :
    (insert_documents_to_mongo [d] s noFailure 1000).1 = upsertOne s d := by
  rw [insert_documents_to_mongo]
  simp only [List.isEmpty_cons, Bool.false_eq_true, if_false,
    chunks_singleton 1000 (by omega) d]
  simp [insertBatches, noFailure, runBatch]

/-- Claim C6: the batch loader partitions the document sequence into
contiguous batches (flattening the batches in order gives back the sequence,
so every document lies in exactly one batch, in order), every batch except
possibly the last has exactly the configured size and none exceeds it; and a
failed batch is skipped: it leaves the store and the running total unchanged
and processing continues with the next batch. -/
theorem c6_batch_partition_and_failure :
    (∀ (bs : Nat) (docs : List MongoDoc), 0 < bs →
      (chunks bs docs).flatten = docs ∧
      (∀ c ∈ (chunks bs docs).dropLast, c.length = bs) ∧
      (∀ c ∈ chunks bs docs, c.length ≤ bs)) ∧
    (∀ (fails : Nat → Bool) (store : Store) (total i : Nat)
        (b : List MongoDoc) (rest : List (List MongoDoc)),
      fails i = true →
      insertBatches fails store total i (b :: rest)
        = insertBatches fails store total (i+1) rest) := by
  refine ⟨fun bs docs h => ⟨chunks_flatten bs docs h,
    chunks_dropLast_length bs docs h, chunks_length_le bs docs h⟩,
    insertBatches_failed_skip⟩

/-- Witness for C6: partition of a three-document list into batches of two,
and skipping of a failing first batch. -/
theorem c6_batch_partition_and_failure_witness :
    (0 < 2 ∧ (chunks 2 [wdoc, wdoc, wdoc]).flatten = [wdoc, wdoc, wdoc]) ∧
    ((fun _ : Nat => true) 0 = true ∧
      insertBatches (fun _ => true) [] 0 0 [[wdoc]]
        = insertBatches (fun _ => true) [] 0 1 []) :=
  ⟨⟨by decide, (c6_batch_partition_and_failure.1 2 [wdoc, wdoc, wdoc] (by decide)).1⟩,
   ⟨rfl, c6_batch_partition_and_failure.2 (fun _ => true) [] 0 0 [wdoc] [] rfl⟩⟩

/-- Claim C3: loading a sample record twice through the batch upsert (same
composite key both times) leaves exactly one document under that key, and
that document is the second load's record in full — its gene mapping is the
second load's gene mapping (a full replace), not a merge of the two loads. -/
theorem c3_idempotent_upsert (store : Store) (d1 d2 : MongoDoc)
    (hnd : (storeIds store).Nodup) (hid : d1._id = d2._id) :
    countKey (insert_documents_to_mongo [d2]
        (insert_documents_to_mongo [d1] store noFailure 1000).1 noFailure 1000).1 d2._id = 1 ∧
    findDoc (insert_documents_to_mongo [d2]
        (insert_documents_to_mongo [d1] store noFailure 1000).1 noFailure 1000).1 d2._id
      = some d2 ∧
    (findDoc (insert_documents_to_mongo [d2]
        (insert_documents_to_mongo [d1] store noFailure 1000).1 noFailure 1000).1 d2._id).map
        MongoDoc.genes = some d2.genes := by
  rw [insert_single, insert_single]
  have hnd1 : (storeIds (upsertOne store d1)).Nodup := nodup_storeIds_upsertOne store d1 hnd
  have hnd2 : (storeIds (upsertOne (upsertOne store d1) d2)).Nodup :=
    nodup_storeIds_upsertOne _ d2 hnd1
  have hfind := findDoc_upsertOne_self (upsertOne store d1) d2
  refine ⟨?_, hfind, by rw [hfind]; rfl⟩
  exact countKey_nodup_mem _ d2._id hnd2 (mem_storeIds_upsertOne_self _ d2)

/-- Witness for C3: loading sample TCGA-AB-1234-01 twice (values 1.0 then
2.0) into the empty store yields one document whose genes are the second
load's. -/
theorem c3_idempotent_upsert_witness :
    ((storeIds []).Nodup ∧ docA._id = docB._id) ∧
    countKey (insert_documents_to_mongo [docB]
        (insert_documents_to_mongo [docA] [] noFailure 1000).1 noFailure 1000).1 docB._id = 1 ∧
    findDoc (insert_documents_to_mongo [docB]
        (insert_documents_to_mongo [docA] [] noFailure 1000).1 noFailure 1000).1 docB._id
      = some docB :=
  ⟨⟨by decide, by decide⟩,
   (c3_idempotent_upsert [] docA docB (by decide) (by decide)).1,
   (c3_idempotent_upsert [] docA docB (by decide) (by decide)).2.1⟩

/-- Counterexample to claim C4: a stored document for AB:TCGA-AB-1234 holds
the non-empty clinical mapping [("OS","1")]; re-running the gene-loading pass
(upserting a freshly built record with the same composite key) rewrites the
clinical field to the fresh record's empty mapping, so the clinical field is
NOT left unchanged. -/
theorem c4_counterexample :
    oldDoc.clinical = [("OS", PyValue.vstr "1")] ∧
    oldDoc.clinical ≠ [] ∧
    freshDoc._id = oldDoc._id ∧
    (findDoc [oldDoc] oldDoc._id).map MongoDoc.clinical
      = some [("OS", PyValue.vstr "1")] ∧
    (findDoc (insert_documents_to_mongo [freshDoc] [oldDoc] noFailure 1000).1
        oldDoc._id).map MongoDoc.clinical = some [] ∧
    (findDoc (insert_documents_to_mongo [freshDoc] [oldDoc] noFailure 1000).1
        oldDoc._id).map MongoDoc.clinical
      ≠ (findDoc [oldDoc] oldDoc._id).map MongoDoc.clinical := by
  refine ⟨rfl, by decide, by decide, by decide, ?_, ?_⟩ <;> rw [insert_single] <;> decide

/-- Claim C4 as amended: the gene-loading pass performs a full-document
replace via `$set` of every field of the fresh record, whose clinical mapping
is empty — so after re-running the pass the stored document under the record
key IS the fresh record and its clinical field is the empty mapping; any
previously stored clinical data is overwritten, not preserved. -/
theorem c4_amended (store : Store) (row : Row) (gene_columns : List String) :
    findDoc (insert_documents_to_mongo [create_mongo_document row gene_columns]
        store noFailure 1000).1 (create_mongo_document row gene_columns)._id
      = some (create_mongo_document row gene_columns) ∧
    (create_mongo_document row gene_columns).clinical = [] ∧
    (findDoc (insert_documents_to_mongo [create_mongo_document row gene_columns]
        store noFailure 1000).1 (create_mongo_document row gene_columns)._id).map
        MongoDoc.clinical = some [] := by
  rw [insert_single]
  have h := findDoc_upsertOne_self store (create_mongo_document row gene_columns)
  exact ⟨h, rfl, by rw [h]; rfl⟩

/-- Counterexample to claim C7: the MinIO file path (process_file_from_minio)
selects decompression by the ".gz" name suffix only.  A payload that starts
with the gzip magic bytes 1f 8b but is fetched under the name
"tcga/data.tsv" is decoded as plain UTF-8 there, NOT gzip-decompressed —
so gzip detection is not independent of the object's file-extension naming
for every path that consumes payloads. -/
theorem c7_counterexample :
    ([0x1f, 0x8b, 0x08] : List Nat).take 2 = gzip_magic ∧
    process_file_from_minio_decode "tcga/data.tsv" [0x1f, 0x8b, 0x08]
      = DecodeMode.plainUtf8 ∧
    process_file_from_minio_decode "tcga/plain.gz" [0x41, 0x42]
      = DecodeMode.gzipThenUtf8 ∧
    process_tsv_data_decode [0x1f, 0x8b, 0x08] = DecodeMode.gzipThenUtf8 := by
  refine ⟨by decide, by decide, by decide, by decide⟩

/-- Claim C7 as amended: process_tsv_data detects gzip by the two-byte magic
number 1f 8b, independent of naming; but process_file_from_minio (the MinIO
object path) chooses gzip decompression solely by whether the object name
ends in ".gz", never consulting the payload's leading bytes. -/
theorem c7_amended (tsv_content payload : List Nat) (object_name : String) :
    (process_tsv_data_decode tsv_content = DecodeMode.gzipThenUtf8
      ↔ tsv_content.take 2 = gzip_magic) ∧
    (process_file_from_minio_decode object_name payload = DecodeMode.gzipThenUtf8
      ↔ pyEndsWith object_name ".gz" = true) := by
  constructor
  · unfold process_tsv_data_decode
    split
    · rename_i h
      simp [h]
    · rename_i h
      simp [h]
  · unfold process_file_from_minio_decode
    split
    · rename_i h
      simp [h]
    · rename_i h
      simp [h]

/-- Counterexample to claim C8: for the canonical field "gender" with
candidate columns ["gender", "sex"], a table having both columns where the
row's "gender" value is the null token "nan" and its "sex" value is "male":
the code resolves the field to nothing (the break fires at the first
EXISTING candidate column regardless of its value), although a later
candidate column ("sex") exists with a non-missing, non-null value — the
claim would require the value "male" to be stored.  The whole row therefore
resolves to zero clinical fields. -/
theorem c8_counterexample :
    ("gender", ["gender", "sex"]) ∈ field_mapping ∧
    "gender" ∈ cexColumns ∧ goodValue (cexRow "gender") = false ∧
    "sex" ∈ cexColumns ∧ goodValue (cexRow "sex") = true ∧
    resolveField cexColumns cexRow ["gender", "sex"] = none ∧
    rowClinical cexColumns cexRow = [] := by
  refine ⟨by decide, by decide, by decide, by decide, by decide, by decide, by decide⟩

/-- Claim C8 as amended: the candidate scan stops at the FIRST candidate
source column that exists in the table: if that column's value is
non-missing and not a null token it is stored, otherwise the canonical field
is omitted without consulting any later candidate; if no candidate column
exists the field is omitted; and patients with zero resolved clinical fields
are excluded from the output map. -/
theorem c8_first_existing_column_wins :
    (∀ (columns : List String) (row : String → PyValue) (cands : List String),
      (∀ c ∈ cands, c ∉ columns) → resolveField columns row cands = none) ∧
    (∀ (columns : List String) (row : String → PyValue)
        (pre : List String) (c : String) (cs : List String),
      (∀ x ∈ pre, x ∉ columns) → c ∈ columns →
      resolveField columns row (pre ++ c :: cs)
        = if goodValue (row c) then some (row c) else none) ∧
    (∀ (columns : List String) (rows : List (String → PyValue))
        (entry : String × List (String × PyValue)),
      entry ∈ load_clinical_rows columns rows → entry.2 ≠ []) := by
  refine ⟨?_, ?_, ?_⟩
  · intro columns row cands h
    induction cands with
    | nil => rfl
    | cons c cs ih =>
      have hc : c ∉ columns := h c (List.mem_cons_self c cs)
      simp only [resolveField, if_neg hc]
      exact ih (fun x hx => h x (List.mem_cons_of_mem c hx))
  · intro columns row pre c cs hpre hc
    induction pre with
    | nil => simp [resolveField, hc]
    | cons x xs ih =>
      have hx : x ∉ columns := hpre x (List.mem_cons_self x xs)
      simp only [List.cons_append, resolveField, if_neg hx]
      exact ih (fun y hy => hpre y (List.mem_cons_of_mem x hy))
  · intro columns rows entry hmem
    simp only [load_clinical_rows, List.mem_filterMap] at hmem
    obtain ⟨row, hrow, hsome⟩ := hmem
    rcases hpid : derivePatientId columns row with _ | pid
    · rw [hpid] at hsome
      exact absurd hsome (by simp)
    · rw [hpid] at hsome
      simp only at hsome
      by_cases hemp : (rowClinical columns row).isEmpty
      · rw [if_pos hemp] at hsome
        exact absurd hsome (by simp)
      · rw [if_neg hemp] at hsome
        have := Option.some_injective _ hsome
        rw [← this]
        simpa [List.isEmpty_iff] using hemp

/-- Witness for C8's amended theorem: all three parts at concrete tables. -/
theorem c8_first_existing_column_wins_witness :
    ((∀ c ∈ ["absent"], c ∉ cexColumns) ∧
      resolveField cexColumns cexRow ["absent"] = none) ∧
    ((∀ x ∈ ["zz"], x ∉ cexColumns) ∧ "sex" ∈ cexColumns ∧
      resolveField cexColumns cexRow (["zz"] ++ "sex" :: [])
        = if goodValue (cexRow "sex") then some (cexRow "sex") else none) ∧
    (("1", [("OS", PyValue.vstr "1")])
        ∈ load_clinical_rows ["OS"] [fun _ => PyValue.vstr "1"] ∧
      ("1", [("OS", PyValue.vstr "1")]).2 ≠ []) :=
  ⟨⟨by decide, c8_first_existing_column_wins.1 cexColumns cexRow ["absent"] (by decide)⟩,
   ⟨by decide, by decide,
    c8_first_existing_column_wins.2.1 cexColumns cexRow ["zz"] "sex" [] (by decide) (by decide)⟩,
   ⟨by decide,
    c8_first_existing_column_wins.2.2 ["OS"] [fun _ => PyValue.vstr "1"]
      ("1", [("OS", PyValue.vstr "1")]) (by decide)⟩⟩

/-! ## Helper lemmas about the clinical update pass -/

theorem map_erase_setClinicalFirst (s : Store) (i : String) (c : List (String × PyValue)) :
    (setClinicalFirst s i c).map eraseClinical = s.map eraseClinical := by
  induction s with
  | nil => rfl
  | cons d ds ih =>
    by_cases h : d._id = i
    · simp only [setClinicalFirst, if_pos h, List.map_cons]
      rfl
    · simp only [setClinicalFirst, if_neg h, List.map_cons]
      rw [ih]

theorem applyClinicalOps_map_erase (ops : List (String × List (String × PyValue)))
    (acc : Store × Nat) :
    ((applyClinicalOps acc ops).1).map eraseClinical = acc.1.map eraseClinical := by
  induction ops generalizing acc with
  | nil => rfl
  | cons op rest ih =>
    simp only [applyClinicalOps]
    exact (ih _).trans (map_erase_setClinicalFirst acc.1 op.1 op.2)

theorem findDoc_setClinicalFirst_ne (s : Store) (i j : String)
    (c : List (String × PyValue)) (h : j ≠ i) :
    findDoc (setClinicalFirst s i c) j = findDoc s j := by
  induction s with
  | nil => rfl
  | cons d ds ih =>
    by_cases hd : d._id = i
    · have hdj : ¬ d._id = j := fun he => h (he.symm.trans hd)
      simp only [setClinicalFirst, if_pos hd, findDoc]
      rw [if_neg hdj, if_neg hdj]
    · by_cases hdj : d._id = j
      · simp only [setClinicalFirst, if_neg hd]
        simp [findDoc, hdj]
      · simp only [setClinicalFirst, if_neg hd]
        simp [findDoc, hdj, ih]

theorem findDoc_setClinicalFirst_self (s : Store) (i : String)
    (c : List (String × PyValue)) :
    findDoc (setClinicalFirst s i c) i
      = (findDoc s i).map (fun d => { d with clinical := c }) := by
  induction s with
  | nil => rfl
  | cons d ds ih =>
    by_cases hd : d._id = i
    · simp only [setClinicalFirst, if_pos hd]
      simp [findDoc, hd]
    · simp only [setClinicalFirst, if_neg hd]
      simp [findDoc, hd, ih]

theorem applyClinicalOps_untouched (ops : List (String × List (String × PyValue)))
    (acc : Store × Nat) (j : String) (h : ∀ op ∈ ops, op.1 ≠ j) :
    findDoc (applyClinicalOps acc ops).1 j = findDoc acc.1 j := by
  induction ops generalizing acc with
  | nil => rfl
  | cons op rest ih =>
    simp only [applyClinicalOps]
    rw [ih _ (fun o ho => h o (List.mem_cons_of_mem op ho))]
    exact findDoc_setClinicalFirst_ne acc.1 op.1 j op.2
      (Ne.symm (h op (List.mem_cons_self op rest)))

theorem applyClinicalOps_mem (ops : List (String × List (String × PyValue)))
    (acc : Store × Nat) (j : String) (c : List (String × PyValue))
    (hnd : (ops.map Prod.fst).Nodup) (hm : (j, c) ∈ ops) :
    findDoc (applyClinicalOps acc ops).1 j
      = (findDoc acc.1 j).map (fun d => { d with clinical := c }) := by
  induction ops generalizing acc with
  | nil => simp at hm
  | cons op rest ih =>
    simp only [List.map_cons, List.nodup_cons] at hnd
    rcases List.mem_cons.mp hm with heq | hm2
    · subst heq
      simp only [applyClinicalOps]
      have hrest : ∀ o ∈ rest, o.1 ≠ j := by
        intro o ho hoe
        exact hnd.1 (hoe ▸ List.mem_map.mpr ⟨o, ho, rfl⟩)
      rw [applyClinicalOps_untouched rest _ j hrest]
      exact findDoc_setClinicalFirst_self acc.1 j c
    · have hne : op.1 ≠ j := by
        intro he
        exact hnd.1 (he ▸ List.mem_map.mpr ⟨(j, c), hm2, rfl⟩)
      simp only [applyClinicalOps]
      rw [ih _ hnd.2 hm2]
      rw [findDoc_setClinicalFirst_ne acc.1 op.1 j op.2 (Ne.symm hne)]

theorem filterMap_fst_sublist (s : Store)
    (f : MongoDoc → Option (String × List (String × PyValue)))
    (hf : ∀ (d : MongoDoc) (p : String × List (String × PyValue)),
      f d = some p → p.1 = d._id) :
    ((s.filterMap f).map Prod.fst).Sublist (storeIds s) := by
  induction s with
  | nil => simp [storeIds]
  | cons d ds ih =>
    rw [storeIds_cons]
    rcases hfd : f d with _ | p
    · simp only [List.filterMap_cons, hfd]
      exact ih.trans (List.sublist_cons_self d._id (storeIds ds))
    · simp only [List.filterMap_cons, hfd, List.map_cons, hf d p hfd]
      exact ih.cons₂ d._id

theorem findDoc_mem_nodup (s : Store) (d : MongoDoc)
    (hnd : (storeIds s).Nodup) (hm : d ∈ s) : findDoc s d._id = some d := by
  induction s with
  | nil => simp at hm
  | cons e t ih =>
    rw [storeIds_cons] at hnd
    simp only [List.nodup_cons] at hnd
    rcases List.mem_cons.mp hm with rfl | hm2
    · simp [findDoc]
    · by_cases he : e._id = d._id
      · exact absurd (he ▸ List.mem_map.mpr ⟨d, hm2, rfl⟩) hnd.1
      · simp only [findDoc, if_neg he]
        exact ih hnd.2 hm2

/-- Claim C9: the clinical-join update sets only the `clinical` field: for
an empty clinical map it is a no-op returning zero updates (reported, not an
error); erasing the clinical field, the updated store is identical to the
original (so gene mappings, patient_id, sample_id, cohort and composite keys
of every document are untouched); and a document whose patient id is a key
of the clinical map ends up exactly as before with only its clinical field
replaced by the mapped value. -/
theorem c9_clinical_update_frame :
    (∀ (clinical_data : List (String × List (String × PyValue))) (store : Store),
      clinical_data = [] →
      update_patients_with_clinical clinical_data store = (store, 0)) ∧
    (∀ (clinical_data : List (String × List (String × PyValue))) (store : Store),
      ((update_patients_with_clinical clinical_data store).1).map eraseClinical
        = store.map eraseClinical) ∧
    (∀ (clinical_data : List (String × List (String × PyValue))) (store : Store)
        (d : MongoDoc) (c : List (String × PyValue)),
      (storeIds store).Nodup → d ∈ store → d.patient_id ≠ "" →
      lookupClinical clinical_data d.patient_id = some c →
      clinical_data ≠ [] →
      findDoc (update_patients_with_clinical clinical_data store).1 d._id
        = some { d with clinical := c }) := by
  refine ⟨?_, ?_, ?_⟩
  · intro clinical_data store h
    subst h
    rfl
  · intro clinical_data store
    by_cases h : clinical_data.isEmpty
    · simp only [update_patients_with_clinical, if_pos h]
    · simp only [update_patients_with_clinical, if_neg h]
      exact applyClinicalOps_map_erase _ _
  · intro clinical_data store d c hnd hm hpid hlook hne
    have hemp : ¬ (clinical_data.isEmpty = true) :=
      fun h => hne (List.isEmpty_iff.mp h)
    rw [update_patients_with_clinical, if_neg hemp]
    have hf : ∀ (dd : MongoDoc) (p : String × List (String × PyValue)),
        (if dd.patient_id = "" then none
         else (lookupClinical clinical_data dd.patient_id).map (fun c2 => (dd._id, c2)))
          = some p → p.1 = dd._id := by
      intro dd p hp
      by_cases hdd : dd.patient_id = ""
      · rw [if_pos hdd] at hp
        exact absurd hp (by simp)
      · rw [if_neg hdd] at hp
        obtain ⟨a, ha, rfl⟩ := Option.map_eq_some'.mp hp
        rfl
    have hndops := (filterMap_fst_sublist store _ hf).nodup hnd
    have hmem : (d._id, c) ∈ store.filterMap (fun dd =>
        if dd.patient_id = "" then none
        else (lookupClinical clinical_data dd.patient_id).map (fun c2 => (dd._id, c2))) := by
      refine List.mem_filterMap.mpr ⟨d, hm, ?_⟩
      rw [if_neg hpid, hlook]
      rfl
    rw [applyClinicalOps_mem _ (store, 0) d._id c hndops hmem]
    rw [findDoc_mem_nodup store d hnd hm]
    rfl

/-- Witness for C9: the empty clinical map is a no-op on a one-document
store, and a clinical entry for patient TCGA-AB-1234 lands in that
document's clinical field. -/
theorem c9_clinical_update_frame_witness :
    update_patients_with_clinical [] [oldDoc] = ([oldDoc], 0) ∧
    ((storeIds [oldDoc]).Nodup ∧ oldDoc ∈ [oldDoc] ∧ oldDoc.patient_id ≠ "" ∧
      lookupClinical [("TCGA-AB-1234", [("DSS", PyValue.vint 0)])] oldDoc.patient_id
        = some [("DSS", PyValue.vint 0)] ∧
      ([("TCGA-AB-1234", [("DSS", PyValue.vint 0)])] :
          List (String × List (String × PyValue))) ≠ []) ∧
    findDoc (update_patients_with_clinical
        [("TCGA-AB-1234", [("DSS", PyValue.vint 0)])] [oldDoc]).1 oldDoc._id
      = some { oldDoc with clinical := [("DSS", PyValue.vint 0)] } :=
  ⟨c9_clinical_update_frame.1 [] [oldDoc] rfl,
   ⟨by decide, by decide, by decide, by decide, by decide⟩,
   c9_clinical_update_frame.2.2 [("TCGA-AB-1234", [("DSS", PyValue.vint 0)])] [oldDoc]
     oldDoc [("DSS", PyValue.vint 0)] (by decide) (by decide) (by decide)
     (by decide) (by decide)⟩
